import Mathlib

/-!
# Shallow embedding of the logflux-go-sdk send pipeline

This file embeds, in Lean 4, the parts of the `logflux-go-sdk` Go SDK that the
verified properties refer to: the circuit breaker (`canExecute`, `onSuccess`,
`onFailure`), the retry loop (`sendWithRetry`), the backoff policy
(`Config.CalculateBackoffDelay`), the async enqueue (`sendAsync`), the batch
client (`SendLogEntry`, `flushBatchLocked`, `Close`), client close
(`Client.Close`), authentication (`Client.Authenticate`), and log-entry
builders (`LogEntry.WithLogLevel`).

Modelling conventions:
* Go `int32` atomics are embedded as `Int` together with an explicit
  wrap-around function `wrap32` applied exactly where the Go code performs
  32-bit arithmetic (`atomic.AddInt32`, an `int32(...)` conversion).
* Wall-clock time (`time.Now().UnixNano()`) is passed in explicitly as an
  integer `now` parameter (nanoseconds).
* Network nondeterminism is passed in as an environment `env : Nat → Bool × Bool`
  giving, for each attempt number, whether a dial would succeed and whether a
  write on the live connection would succeed.
* `float64` arithmetic in the backoff computation is idealised over `ℚ`; the
  Go `time.Duration(float)` conversion truncates toward zero, embedded as
  `truncToInt`.
* Goroutine concurrency is sequentialised: atomic load/CAS sequences execute
  without interference, which is the single-caller semantics of the code.
-/

/-- Two's-complement wrap-around to the `int32` range, used where the Go code
does 32-bit arithmetic (`atomic.AddInt32`, `int32(...)` conversions). -/
def wrap32 (x : Int) : Int := (x + 2 ^ 31) % 2 ^ 32 - 2 ^ 31

/-- Errors produced by a single attempt of the retry loop: a failed dial
(`ConnectError`) or a failed serialize-and-write (`WriteError`). -/
inductive AttemptError where
  | connectError (msg : String)
  | writeError (msg : String)
deriving Repr, DecidableEq

/-- Errors surfaced by the SDK (taxonomy of the error values the Go code
builds with `fmt.Errorf`, plus the stdlib `net.ErrClosed`). -/
inductive SdkError where
  | circuitOpenError
  | sendExhaustedError (attempts : Int) (lastErr : Option AttemptError)
  | queueFullError
  | notInitializedError
  | shuttingDownError
  | transportUnsupportedError (msg : String)
  | netErrClosed
deriving Repr, DecidableEq

/-- `circuitBreakerState`: the three circuit-breaker states
(`circuitClosed`, `circuitOpen`, `circuitHalfOpen`). -/
inductive circuitBreakerState where
  | circuitClosed
  | circuitOpen
  | circuitHalfOpen
deriving Repr, DecidableEq

/-- `config.Config`: client configuration. Durations are in nanoseconds
(`time.Duration` is an `int64` nanosecond count in Go). -/
structure Config where
  Network : String
  Address : String
  SharedSecret : String
  Timeout : Int
  MaxRetries : Int
  RetryDelay : Int
  MaxRetryDelay : Int
  RetryMultiplier : ℚ
  JitterPercent : ℚ
  AsyncMode : Bool
  ChannelBuffer : Nat
  CircuitBreakerThreshold : Int
  CircuitBreakerTimeout : Int
deriving Repr, DecidableEq

/-- `circuitBreaker`: configuration pointer plus the three atomic fields. -/
structure circuitBreaker where
  config : Config
  lastFailureTime : Int
  state : circuitBreakerState
  failureCount : Int
deriving Repr, DecidableEq

namespace circuitBreaker

/-- `circuitBreaker.canExecute`, sequentialised: returns the updated breaker
(the CAS winner moves `Open → HalfOpen`) and `none` when execution is
permitted, `some circuitOpenError` when it is rejected.  `now` is
`time.Now().UnixNano()`. -/
def canExecute (cb : circuitBreaker) (now : Int) :
    circuitBreaker × Option SdkError :=
  match cb.state with
  | .circuitClosed => (cb, none)
  | .circuitOpen =>
      if now - cb.lastFailureTime ≥ cb.config.CircuitBreakerTimeout then
        ({ cb with state := .circuitHalfOpen }, none)
      else
        (cb, some .circuitOpenError)
  | .circuitHalfOpen => (cb, none)

/-- `circuitBreaker.onSuccess`: success in `HalfOpen` closes the circuit and
zeroes the counter; success in `Closed` zeroes the counter. -/
def onSuccess (cb : circuitBreaker) : circuitBreaker :=
  match cb.state with
  | .circuitHalfOpen => { cb with state := .circuitClosed, failureCount := 0 }
  | .circuitClosed => { cb with failureCount := 0 }
  | .circuitOpen => cb

/-- `circuitBreaker.onFailure`: increments the (int32) failure counter,
records the failure time, then: `HalfOpen → Open`; in `Closed`, open the
circuit when the counter has reached `int32(CircuitBreakerThreshold)`. -/
def onFailure (cb : circuitBreaker) (now : Int) : circuitBreaker :=
  let failures := wrap32 (cb.failureCount + 1)
  let cb' := { cb with failureCount := failures, lastFailureTime := now }
  match cb'.state with
  | .circuitHalfOpen => { cb' with state := .circuitOpen }
  | .circuitClosed =>
      if failures ≥ wrap32 cb.config.CircuitBreakerThreshold then
        { cb' with state := .circuitOpen }
      else cb'
  | .circuitOpen => cb'

end circuitBreaker

/-- A live transport connection handle; `closed` records whether
`net.Conn.Close` has already been called on it. -/
structure Conn where
  closed : Bool
deriving Repr, DecidableEq

/-- Models Go `net.Conn.Close`: the standard library returns `net.ErrClosed`
("use of closed network connection") when closing an already-closed
connection, and `nil` on the first close. -/
def Conn.close (cn : Conn) : Conn × Option SdkError :=
  if cn.closed then (cn, some .netErrClosed)
  else ({ cn with closed := true }, none)

/-- `types.LogEntry` (metadata map embedded as an association list). -/
structure LogEntry where
  Metadata : List (String × String)
  Version : String
  Payload : String
  Source : String
  Timestamp : String
  PayloadType : String
  EntryType : Int
  LogLevel : Int
deriving Repr, DecidableEq

/-- Wire payloads the client can send. -/
inductive Payload where
  | logEntry (e : LogEntry)
  | logBatch (version : String) (entries : List LogEntry)
  | ping
  | auth (sharedSecret : String)
deriving Repr, DecidableEq

/-- `Client`: configuration, connection handle, async channel (`none` when
nil), stop channel (`false` when nil), and circuit breaker.  The async
channel is embedded as the queue of buffered requests. -/
structure Client where
  config : Config
  conn : Option Conn
  asyncChan : Option (List Payload)
  stopChan : Bool
  circuitBreaker : circuitBreaker
deriving Repr, DecidableEq

namespace Client

/-- The body of the retry loop of `Client.sendWithRetry`, one recursive call
per iteration of `for attempt := 0; attempt <= MaxRetries; attempt++`.
`env a = (dialOk, writeOk)` tells whether, at attempt `a`, a dial would
succeed and whether a write on the live connection would succeed.
Returns the final connection handle, the accumulated `lastErr`, and whether
the loop exited through the success branch. -/
def retryLoop (env : Nat → Bool × Bool) :
    Nat → Nat → Option Conn → Option AttemptError →
    Option Conn × Option AttemptError × Bool
  | _, 0, conn, lastErr => (conn, lastErr, false)
  | attempt, remaining + 1, conn, lastErr =>
      match conn with
      | none =>
          if (env attempt).1 then
            -- dial succeeded: c.conn is now live; try the write
            if (env attempt).2 then (some { closed := false }, lastErr, true)
            else
              retryLoop env (attempt + 1) remaining none
                (some (.writeError "failed to write data"))
          else
            retryLoop env (attempt + 1) remaining none
              (some (.connectError "failed to connect"))
      | some cn =>
          if (env attempt).2 then (some cn, lastErr, true)
          else
            -- write failed: Close() the connection and nil it out
            retryLoop env (attempt + 1) remaining none
              (some (.writeError "failed to write data"))

end Client

/-- `Client.sendWithRetry`: circuit-breaker gate, then the bounded retry
loop, then outcome reporting.  Besides the updated client and the returned
error it reports how many times `onSuccess` and `onFailure` were invoked on
the circuit breaker (`data` is the payload; its wire outcome is abstracted
by `env`). -/
def Client.sendWithRetry (c : Client) (_data : Payload)
    (env : Nat → Bool × Bool) (now : Int) :
    Client × Option SdkError × Nat × Nat :=
  let gate := circuitBreaker.canExecute c.circuitBreaker now
  match gate.2 with
  | some e => ({ c with circuitBreaker := gate.1 }, some e, 0, 0)
  | none =>
      let r := Client.retryLoop env 0 (c.config.MaxRetries + 1).toNat c.conn none
      if r.2.2 then
        ({ c with conn := r.1,
                  circuitBreaker := circuitBreaker.onSuccess gate.1 },
         none, 1, 0)
      else
        ({ c with conn := r.1,
                  circuitBreaker := circuitBreaker.onFailure gate.1 now },
         some (.sendExhaustedError (c.config.MaxRetries + 1) r.2.1), 0, 1)

/-- `Client.sendAsync`: non-blocking enqueue onto the bounded async channel;
`select`/`default` returns `queueFullError` when the buffer is full. -/
def Client.sendAsync (c : Client) (data : Payload) : Client × Option SdkError :=
  match c.asyncChan, c.stopChan with
  | some q, true =>
      if q.length < c.config.ChannelBuffer then
        ({ c with asyncChan := some (q ++ [data]) }, none)
      else
        (c, some .queueFullError)
  | _, _ => (c, some .notInitializedError)

/-- `Client.Close`: stops the async worker (nils both channels) when async
mode is running, then closes the connection handle if present.  The handle
itself is not cleared. -/
def Client.Close (c : Client) : Client × Option SdkError :=
  let c1 :=
    if c.config.AsyncMode && c.stopChan then
      { c with stopChan := false, asyncChan := none }
    else c
  match c1.conn with
  | none => (c1, none)
  | some cn =>
      let r := cn.close
      ({ c1 with conn := some r.1 }, r.2)

/-- `types.AuthResponse`. -/
structure AuthResponse where
  Status : String
  Message : String
deriving Repr, DecidableEq

/-- `Client.Authenticate`: rejects locally when the transport is not TCP or
no shared secret is configured; otherwise sends an auth request through
`sendWithRetry` and synthesises a success response. -/
def Client.Authenticate (c : Client) (env : Nat → Bool × Bool) (now : Int) :
    Client × Option AuthResponse × Option SdkError :=
  if c.config.Network ≠ "tcp" then
    (c, none,
     some (.transportUnsupportedError
       "authentication only required for TCP connections"))
  else if c.config.SharedSecret = "" then
    (c, none,
     some (.transportUnsupportedError
       "shared secret required for TCP authentication"))
  else
    let r := Client.sendWithRetry c (.auth c.config.SharedSecret) env now
    match r.2.1 with
    | some e => (r.1, none, some e)
    | none =>
        (r.1, some { Status := "success", Message := "Authentication successful" },
         none)

/-- Go `time.Duration(f)` conversion from `float64`: truncation toward 0. -/
def truncToInt (q : ℚ) : Int := if 0 ≤ q then ⌊q⌋ else ⌈q⌉

/-- `Config.CalculateBackoffDelay`: exponential backoff with jitter.  The
`float64` arithmetic is idealised over `ℚ`; `r` is the `rand.Float64()`
draw (a value in `[0,1)`). -/
def Config.CalculateBackoffDelay (c : Config) (attempt : Int) (r : ℚ) : Int :=
  if attempt ≤ 0 then c.RetryDelay
  else
    -- delay := float64(c.RetryDelay); delay *= multiplier, attempt times
    let delay0 : ℚ := (c.RetryDelay : ℚ) * c.RetryMultiplier ^ attempt.toNat
    -- cap at maximum delay
    let delay1 : ℚ := if delay0 > (c.MaxRetryDelay : ℚ) then (c.MaxRetryDelay : ℚ) else delay0
    -- jitterAmount := (rand.Float64()*2 - 1) * (delay * jitterPercent)
    let delay2 : ℚ :=
      if c.JitterPercent > 0 then delay1 + (r * 2 - 1) * (delay1 * c.JitterPercent)
      else delay1
    if truncToInt delay2 < c.RetryDelay then c.RetryDelay else truncToInt delay2

/-- `LogLevel` constants (syslog severity levels as per API spec). -/
def LevelEmergency : Int := 1

/-- `LevelInfo = 7`: informational messages, the default level. -/
def LevelInfo : Int := 7

/-- `LevelDebug = 8`: debug-level messages, the lowest severity. -/
def LevelDebug : Int := 8

/-- `LogEntry.WithLogLevel`: sets the log level, defaulting to `LevelInfo`
when the argument is outside `1..8`. -/
def LogEntry.WithLogLevel (e : LogEntry) (logLevel : Int) : LogEntry :=
  let l := if logLevel < LevelEmergency ∨ logLevel > LevelDebug then LevelInfo
           else logLevel
  { e with LogLevel := l }

/-- `config.BatchConfig`. -/
structure BatchConfig where
  MaxBatchSize : Int
  FlushInterval : Int
  AutoFlush : Bool
deriving Repr, DecidableEq

/-- `BatchClient`: pending buffer, stop flag, auto-flush timer (embedded as
an armed/disarmed flag) and batch configuration.  The wrapped `*Client` is
abstracted: the outcome of `client.SendLogBatch` on a given batch is passed
in as a function, and the calls made to it are returned explicitly. -/
structure BatchClient where
  config : BatchConfig
  batch : List LogEntry
  timerArmed : Bool
  stopped : Bool
deriving Repr, DecidableEq

namespace BatchClient

/-- `BatchClient.flushBatchLocked`: no-op on an empty buffer; otherwise copy
the buffer, clear it unconditionally, rearm the timer when auto-flush is on
and the batcher is not stopped, and send the copy through the wrapped
client.  Returns the new state, the flush's error, and the list of
batch-send calls made. -/
def flushBatchLocked (bc : BatchClient)
    (sendLogBatch : List LogEntry → Option SdkError) :
    BatchClient × Option SdkError × List (List LogEntry) :=
  if bc.batch = [] then (bc, none, [])
  else
    let batchCopy := bc.batch
    let bc1 := { bc with batch := [] }
    let bc2 :=
      if bc.config.AutoFlush && !bc.stopped then { bc1 with timerArmed := true }
      else bc1
    (bc2, sendLogBatch batchCopy, [batchCopy])

/-- `BatchClient.SendLogEntry`: forwards directly when stopped; otherwise
appends to the buffer and flushes when the buffer has reached
`MaxBatchSize`.  `sendDirect` abstracts `client.SendLogEntry`. -/
def SendLogEntry (bc : BatchClient) (entry : LogEntry)
    (sendLogBatch : List LogEntry → Option SdkError)
    (sendDirect : LogEntry → Option SdkError) :
    BatchClient × Option SdkError × List (List LogEntry) :=
  if bc.stopped then (bc, sendDirect entry, [])
  else
    let bc1 := { bc with batch := bc.batch ++ [entry] }
    if (bc1.batch.length : Int) ≥ bc.config.MaxBatchSize then
      flushBatchLocked bc1 sendLogBatch
    else
      (bc1, none, [])

/-- `BatchClient.Flush`: manual flush, delegates to `flushBatchLocked`. -/
def Flush (bc : BatchClient)
    (sendLogBatch : List LogEntry → Option SdkError) :
    BatchClient × Option SdkError × List (List LogEntry) :=
  flushBatchLocked bc sendLogBatch

/-- `BatchClient.Close`: mark stopped, stop the timer, flush any remaining
entries (error ignored), then close the wrapped client (whose state and
close result are returned). -/
def Close (bc : BatchClient) (c : Client)
    (sendLogBatch : List LogEntry → Option SdkError) :
    BatchClient × Client × Option SdkError :=
  let bc1 := { bc with stopped := true, timerArmed := false }
  let bc2 :=
    if bc1.batch ≠ [] then (flushBatchLocked bc1 sendLogBatch).1 else bc1
  let r := Client.Close c
  (bc2, r.1, r.2)

end BatchClient

/-- The last error recorded by a run of the retry loop in which every
attempt fails: a write error when the final attempt had (or obtained) a
live connection, a connect error when its dial failed.  `first`/`last` are
the first and last attempt indices; `conn` is the connection handle at
entry. -/
def lastFailError (env : Nat → Bool × Bool) (conn : Option Conn)
    (first last : Nat) : AttemptError :=
  if first = last then
    if conn.isSome || (env first).1 then .writeError "failed to write data"
    else .connectError "failed to connect"
  else
    if (env last).1 then .writeError "failed to write data"
    else .connectError "failed to connect"

/-- The iterated async enqueue: state of the client after `n` calls to
`sendAsync` with payloads `p 0, …, p (n-1)`. -/
def enqueueN (c : Client) (p : Nat → Payload) : Nat → Client
  | 0 => c
  | n + 1 => (Client.sendAsync (enqueueN c p n) (p n)).1

/-- A concrete configuration (the SDK defaults, durations abbreviated) used
by the concrete-evaluation theorems. -/
def cfgW : Config :=
  { Network := "unix", Address := "/tmp/logflux-agent.sock", SharedSecret := "",
    Timeout := 10, MaxRetries := 3, RetryDelay := 100, MaxRetryDelay := 5000,
    RetryMultiplier := 2, JitterPercent := 1 / 10, AsyncMode := false,
    ChannelBuffer := 4, CircuitBreakerThreshold := 5,
    CircuitBreakerTimeout := 30 }

theorem wrap32_eq_self {x : Int} (h0 : -(2 ^ 31) ≤ x) (h1 : x < 2 ^ 31) :
    wrap32 x = x := by
  unfold wrap32
  have hmod : (x + 2 ^ 31) % 2 ^ 32 = x + 2 ^ 31 :=
    Int.emod_eq_of_lt (by omega) (by omega)
  omega

/-- C1: the circuit breaker's update operations implement the transition
table: while `Closed`, a failure increments the consecutive-failure counter
and the state becomes `Open` exactly when the counter reaches the threshold
(for reachable counters, i.e. counters below the threshold); a success
while `Closed` resets the counter to 0; a success while `HalfOpen` yields
`Closed` with counter 0; a failure while `HalfOpen` yields `Open`.  The
range hypotheses keep the `int32` arithmetic away from wrap-around. -/
theorem circuitBreaker_update_table (cb : circuitBreaker) (now : Int)
    (hc0 : 0 ≤ cb.failureCount)
    (hc1 : cb.failureCount + 1 < 2 ^ 31)
    (ht0 : -(2 ^ 31) ≤ cb.config.CircuitBreakerThreshold)
    (ht1 : cb.config.CircuitBreakerThreshold < 2 ^ 31) :
    (cb.state = .circuitClosed →
       (circuitBreaker.onFailure cb now).failureCount = cb.failureCount + 1 ∧
       ((circuitBreaker.onFailure cb now).state = .circuitOpen ↔
          cb.config.CircuitBreakerThreshold ≤ cb.failureCount + 1) ∧
       (cb.failureCount < cb.config.CircuitBreakerThreshold →
          ((circuitBreaker.onFailure cb now).state = .circuitOpen ↔
             cb.failureCount + 1 = cb.config.CircuitBreakerThreshold))) ∧
    (cb.state = .circuitClosed →
       circuitBreaker.onSuccess cb = { cb with failureCount := 0 }) ∧
    (cb.state = .circuitHalfOpen →
       circuitBreaker.onSuccess cb =
         { cb with state := .circuitClosed, failureCount := 0 }) ∧
    (cb.state = .circuitHalfOpen →
       (circuitBreaker.onFailure cb now).state = .circuitOpen) := by
  have hwrap1 : wrap32 (cb.failureCount + 1) = cb.failureCount + 1 :=
    wrap32_eq_self (by omega) hc1
  have hwrap2 : wrap32 cb.config.CircuitBreakerThreshold =
      cb.config.CircuitBreakerThreshold := wrap32_eq_self ht0 ht1
  refine ⟨fun h => ?_, fun h => ?_, fun h => ?_, fun h => ?_⟩
  · unfold circuitBreaker.onFailure
    simp only [h, hwrap1, hwrap2]
    refine ⟨by split <;> rfl, ?_, ?_⟩
    · constructor
      · intro hopen
        by_contra hlt
        rw [if_neg (by omega)] at hopen
        exact absurd hopen (by simp)
      · intro hle
        rw [if_pos (by omega)]
    · intro hlt
      constructor
      · intro hopen
        by_contra hne
        rw [if_neg (by omega)] at hopen
        exact absurd hopen (by simp)
      · intro heq
        rw [if_pos (by omega)]
  · unfold circuitBreaker.onSuccess
    simp only [h]
  · unfold circuitBreaker.onSuccess
    simp only [h]
  · unfold circuitBreaker.onFailure
    simp only [h]

/-- Concrete instance of `circuitBreaker_update_table`: a breaker in
`Closed` with one recorded failure and threshold 2 opens on the next
failure. -/
theorem circuitBreaker_update_table_witness :
    let cb : circuitBreaker :=
      { config := { cfgW with CircuitBreakerThreshold := 2 },
        lastFailureTime := 0, state := .circuitClosed, failureCount := 1 }
    (circuitBreaker.onFailure cb 7).failureCount = 2 ∧
    (circuitBreaker.onFailure cb 7).state = .circuitOpen := by
  intro cb
  have h := circuitBreaker_update_table cb 7 (by decide) (by decide)
    (by decide) (by decide)
  have h1 := h.1 rfl
  exact ⟨h1.1, (h1.2.2 (by decide)).2 (by decide)⟩

/-- A concrete breaker sitting in the `HalfOpen` state. -/
def cbHalfW : circuitBreaker :=
  { config := cfgW, lastFailureTime := 0, state := .circuitHalfOpen,
    failureCount := 5 }

/-- C5 counterexample: with the breaker in `HalfOpen`, a permission check is
permitted and leaves the breaker unchanged, and a second permission check —
before any outcome is recorded — is permitted as well, contradicting the
claim that only one trial send is permitted per transition. -/
theorem halfOpen_second_trial_permitted :
    (circuitBreaker.canExecute cbHalfW 0).2 = none ∧
    (circuitBreaker.canExecute cbHalfW 0).1 = cbHalfW ∧
    (circuitBreaker.canExecute (circuitBreaker.canExecute cbHalfW 0).1 0).2 =
      none := by
  refine ⟨rfl, rfl, rfl⟩

/-- C5 amended: the `Open → HalfOpen` transition is performed by a single
compare-and-swap winner, but while the state remains `HalfOpen` every
permission check is permitted and leaves the breaker unchanged — the code
does not limit `HalfOpen` to a single trial send. -/
theorem halfOpen_every_check_permitted (cb : circuitBreaker) (n1 n2 : Int)
    (h : cb.state = .circuitHalfOpen) :
    circuitBreaker.canExecute cb n1 = (cb, none) ∧
    circuitBreaker.canExecute (circuitBreaker.canExecute cb n1).1 n2 =
      (cb, none) := by
  unfold circuitBreaker.canExecute
  simp only [h]
  exact ⟨trivial, trivial⟩

/-- Concrete instance of `halfOpen_every_check_permitted`. -/
theorem halfOpen_every_check_permitted_witness :
    circuitBreaker.canExecute cbHalfW 3 = (cbHalfW, none) ∧
    circuitBreaker.canExecute (circuitBreaker.canExecute cbHalfW 3).1 4 =
      (cbHalfW, none) :=
  halfOpen_every_check_permitted cbHalfW 3 4 rfl

/-- C10: `WithLogLevel` sets the level to `L` when `1 ≤ L ≤ 8` and to `7`
(`LevelInfo`) otherwise; all other fields are unchanged. -/
theorem WithLogLevel_spec (e : LogEntry) (L : Int) :
    (1 ≤ L ∧ L ≤ 8 → LogEntry.WithLogLevel e L = { e with LogLevel := L }) ∧
    (L < 1 ∨ 8 < L → LogEntry.WithLogLevel e L = { e with LogLevel := 7 }) := by
  unfold LogEntry.WithLogLevel LevelEmergency LevelInfo LevelDebug
  constructor
  · intro h
    rw [if_neg (by omega)]
  · intro h
    rw [if_pos (by omega)]

/-- A concrete log entry used by the concrete-evaluation theorems. -/
def entryW : LogEntry :=
  { Metadata := [], Version := "1.0", Payload := "hello", Source := "app",
    Timestamp := "2026-01-01T00:00:00Z", PayloadType := "generic",
    EntryType := 1, LogLevel := 7 }

/-- Concrete instance of `WithLogLevel_spec`: level 5 is kept, level 99
falls back to 7. -/
theorem WithLogLevel_spec_witness :
    LogEntry.WithLogLevel entryW 5 = { entryW with LogLevel := 5 } ∧
    LogEntry.WithLogLevel entryW 99 = { entryW with LogLevel := 7 } :=
  ⟨(WithLogLevel_spec entryW 5).1 (by decide),
   (WithLogLevel_spec entryW 99).2 (by decide)⟩

/-- C9: `Authenticate` rejects locally — returning the descriptive error and
an unchanged client, for every network environment `env` and time `now`
(hence before any connection, write, retry, or circuit-breaker activity) —
whenever the transport is not TCP, and whenever the shared secret is
empty. -/
theorem Authenticate_local_reject (c : Client) (env : Nat → Bool × Bool)
    (now : Int) :
    (c.config.Network ≠ "tcp" →
       Client.Authenticate c env now =
         (c, none, some (.transportUnsupportedError
            "authentication only required for TCP connections"))) ∧
    (c.config.SharedSecret = "" →
       Client.Authenticate c env now =
         (c, none, some (.transportUnsupportedError
            (if c.config.Network ≠ "tcp" then
               "authentication only required for TCP connections"
             else "shared secret required for TCP authentication")))) := by
  constructor
  · intro h
    unfold Client.Authenticate
    rw [if_pos h]
  · intro h
    unfold Client.Authenticate
    by_cases hn : c.config.Network ≠ "tcp"
    · rw [if_pos hn, if_pos hn]
    · rw [if_neg hn, if_neg hn, if_pos h]

/-- Concrete instance of `Authenticate_local_reject`: a Unix-socket client
(whose shared secret is also empty) is rejected locally. -/
theorem Authenticate_local_reject_witness :
    Client.Authenticate
        { config := cfgW, conn := none, asyncChan := none, stopChan := false,
          circuitBreaker :=
            { config := cfgW, lastFailureTime := 0, state := .circuitClosed,
              failureCount := 0 } }
        (fun _ => (true, true)) 0 =
      ({ config := cfgW, conn := none, asyncChan := none, stopChan := false,
         circuitBreaker :=
           { config := cfgW, lastFailureTime := 0, state := .circuitClosed,
             failureCount := 0 } }, none,
       some (.transportUnsupportedError
         "authentication only required for TCP connections")) :=
  (Authenticate_local_reject _ _ 0).1 (by decide)

/-- C3: while the breaker is `Open` and the open-duration has not yet
elapsed since the recorded failure time, `sendWithRetry` returns
`circuitOpenError` with the client completely unchanged (same connection,
same breaker state and counter) and zero success/failure reports, for every
payload and every network environment — no connection, write, or retry
happens. -/
theorem sendWithRetry_circuit_open (c : Client) (data : Payload)
    (env : Nat → Bool × Bool) (now : Int)
    (hstate : c.circuitBreaker.state = .circuitOpen)
    (htime : now - c.circuitBreaker.lastFailureTime <
      c.circuitBreaker.config.CircuitBreakerTimeout) :
    Client.sendWithRetry c data env now = (c, some .circuitOpenError, 0, 0) := by
  unfold Client.sendWithRetry circuitBreaker.canExecute
  simp only [hstate]
  rw [if_neg (by omega)]

/-- A concrete client whose breaker is `Open` with a fresh failure. -/
def cOpenW : Client :=
  { config := cfgW, conn := none, asyncChan := none, stopChan := false,
    circuitBreaker :=
      { config := cfgW, lastFailureTime := 100, state := .circuitOpen,
        failureCount := 5 } }

/-- Concrete instance of `sendWithRetry_circuit_open`: 10ns after the
failure, with a 30ns open duration, the send is rejected untouched. -/
theorem sendWithRetry_circuit_open_witness :
    Client.sendWithRetry cOpenW .ping (fun _ => (true, true)) 110 =
      (cOpenW, some .circuitOpenError, 0, 0) :=
  sendWithRetry_circuit_open cOpenW .ping (fun _ => (true, true)) 110
    (by decide) (by decide)

/-- C6: a flush of a non-empty buffer clears the buffer to length 0 and
makes exactly one batch-send call with the old contents; the resulting
batcher state is the same whatever the wrapped send returns (the clear is
unconditional, so a failed flush never restores the data); and appending
the entry that brings the buffer to `MaxBatchSize` triggers exactly one
flush and leaves the buffer empty. -/
theorem batcher_flush_spec (bc : BatchClient) (entry : LogEntry)
    (f g : List LogEntry → Option SdkError)
    (sendDirect : LogEntry → Option SdkError) :
    (bc.batch ≠ [] →
       (BatchClient.flushBatchLocked bc f).1.batch = [] ∧
       (BatchClient.flushBatchLocked bc f).2.1 = f bc.batch ∧
       (BatchClient.flushBatchLocked bc f).2.2 = [bc.batch]) ∧
    (BatchClient.flushBatchLocked bc f).1 =
      (BatchClient.flushBatchLocked bc g).1 ∧
    (bc.stopped = false →
       (bc.batch.length : Int) + 1 = bc.config.MaxBatchSize →
       (BatchClient.SendLogEntry bc entry f sendDirect).1.batch = [] ∧
       (BatchClient.SendLogEntry bc entry f sendDirect).2.1 =
         f (bc.batch ++ [entry]) ∧
       (BatchClient.SendLogEntry bc entry f sendDirect).2.2 =
         [bc.batch ++ [entry]]) := by
  refine ⟨fun hne => ?_, ?_, fun hstop hfull => ?_⟩
  · unfold BatchClient.flushBatchLocked
    rw [if_neg hne]
    refine ⟨?_, rfl, rfl⟩
    split <;> rfl
  · unfold BatchClient.flushBatchLocked
    split <;> rfl
  · unfold BatchClient.SendLogEntry
    rw [if_neg (by simp [hstop])]
    rw [if_pos (by simp only [List.length_append, List.length_cons,
      List.length_nil]; push_cast; omega)]
    unfold BatchClient.flushBatchLocked
    rw [if_neg (by simp)]
    refine ⟨?_, rfl, rfl⟩
    split <;> rfl

/-- A concrete batcher one entry short of its maximum batch size. -/
def bcW : BatchClient :=
  { config := { MaxBatchSize := 2, FlushInterval := 5, AutoFlush := true },
    batch := [entryW], timerArmed := true, stopped := false }

/-- Concrete instance of `batcher_flush_spec`: appending the second entry to
a batcher with `MaxBatchSize = 2` flushes exactly once — even though the
wrapped send fails — and empties the buffer. -/
theorem batcher_flush_spec_witness :
    (BatchClient.SendLogEntry bcW entryW (fun _ => some .netErrClosed)
        (fun _ => none)).1.batch = [] ∧
    (BatchClient.SendLogEntry bcW entryW (fun _ => some .netErrClosed)
        (fun _ => none)).2.1 = some .netErrClosed ∧
    (BatchClient.SendLogEntry bcW entryW (fun _ => some .netErrClosed)
        (fun _ => none)).2.2 = [[entryW, entryW]] :=
  (batcher_flush_spec bcW entryW (fun _ => some .netErrClosed)
    (fun _ => some .netErrClosed) (fun _ => none)).2.2 rfl (by decide)

theorem enqueueN_state (c : Client) (p : Nat → Payload)
    (hq : c.asyncChan = some []) (hs : c.stopChan = true) :
    ∀ n, n ≤ c.config.ChannelBuffer →
      (enqueueN c p n).asyncChan = some ((List.range n).map p) ∧
      (enqueueN c p n).stopChan = true ∧
      (enqueueN c p n).config = c.config := by
  intro n
  induction n with
  | zero => intro _; exact ⟨by simpa using hq, hs, rfl⟩
  | succ m ih =>
      intro hm
      obtain ⟨ihq, ihs, ihc⟩ := ih (by omega)
      unfold enqueueN Client.sendAsync
      rw [ihq]
      simp only [ihs, ihc]
      rw [if_pos (by simp only [List.length_map, List.length_range]; omega)]
      refine ⟨?_, rfl, rfl⟩
      simp [List.range_succ]

/-- C7: on a client whose async queue (capacity `ChannelBuffer = N`) starts
empty and is never drained, each of the first `N` enqueues succeeds, and
the `(N+1)`-th enqueue returns `queueFullError` leaving the client — in
particular the queue — unchanged. -/
theorem sendAsync_capacity (c : Client) (p : Nat → Payload)
    (hq : c.asyncChan = some []) (hs : c.stopChan = true) :
    (∀ i, i < c.config.ChannelBuffer →
       (Client.sendAsync (enqueueN c p i) (p i)).2 = none) ∧
    Client.sendAsync (enqueueN c p c.config.ChannelBuffer)
        (p c.config.ChannelBuffer) =
      (enqueueN c p c.config.ChannelBuffer, some .queueFullError) := by
  constructor
  · intro i hi
    obtain ⟨hqi, hsi, hci⟩ := enqueueN_state c p hq hs i (by omega)
    unfold Client.sendAsync
    rw [hqi]
    simp only [hsi, hci]
    rw [if_pos (by simp only [List.length_map, List.length_range]; omega)]
  · obtain ⟨hqN, hsN, hcN⟩ :=
      enqueueN_state c p hq hs c.config.ChannelBuffer (le_refl _)
    unfold Client.sendAsync
    rw [hqN]
    simp only [hsN, hcN]
    rw [if_neg (by simp only [List.length_map, List.length_range]; omega)]

/-- A concrete async-mode client with an empty queue of capacity 4. -/
def cAsyncW : Client :=
  { config := { cfgW with AsyncMode := true }, conn := none,
    asyncChan := some [], stopChan := true,
    circuitBreaker :=
      { config := { cfgW with AsyncMode := true }, lastFailureTime := 0,
        state := .circuitClosed, failureCount := 0 } }

/-- Concrete instance of `sendAsync_capacity`: with capacity 4, the first
enqueue succeeds and the 5th fails with `queueFullError`. -/
theorem sendAsync_capacity_witness :
    (Client.sendAsync (enqueueN cAsyncW (fun _ => .ping) 0) .ping).2 = none ∧
    Client.sendAsync (enqueueN cAsyncW (fun _ => .ping) 4) .ping =
      (enqueueN cAsyncW (fun _ => .ping) 4, some .queueFullError) :=
  ⟨(sendAsync_capacity cAsyncW (fun _ => .ping) rfl rfl).1 0 (by decide),
   (sendAsync_capacity cAsyncW (fun _ => .ping) rfl rfl).2⟩

theorem Close_conn_spec (c : Client) :
    (c.conn = none →
       (Client.Close c).1.conn = none ∧ (Client.Close c).2 = none) ∧
    (∀ cn, c.conn = some cn →
       (Client.Close c).1.conn = some { closed := true } ∧
       (Client.Close c).2 = (if cn.closed then some .netErrClosed else none)) := by
  unfold Client.Close Conn.close
  by_cases h : (c.config.AsyncMode && c.stopChan) = true
  · rw [if_pos h]
    constructor
    · intro hc
      simp only [hc]
      constructor <;> trivial
    · intro cn hc
      simp only [hc]
      by_cases hcl : cn.closed = true
      · rw [if_pos hcl, if_pos hcl]
        refine ⟨?_, rfl⟩
        simp only []
        congr 1
        cases cn
        simp_all
      · rw [if_neg hcl, if_neg hcl]
        exact ⟨rfl, rfl⟩
  · rw [if_neg h]
    constructor
    · intro hc
      simp only [hc]
      constructor <;> trivial
    · intro cn hc
      simp only [hc]
      by_cases hcl : cn.closed = true
      · rw [if_pos hcl, if_pos hcl]
        refine ⟨?_, rfl⟩
        simp only []
        congr 1
        cases cn
        simp_all
      · rw [if_neg hcl, if_neg hcl]
        exact ⟨rfl, rfl⟩

/-- A concrete client holding a live (not yet closed) connection. -/
def cConnW : Client :=
  { config := cfgW, conn := some { closed := false }, asyncChan := none,
    stopChan := false,
    circuitBreaker :=
      { config := cfgW, lastFailureTime := 0, state := .circuitClosed,
        failureCount := 0 } }

/-- C8 counterexample: for a client holding a live connection, the first
`Close` succeeds, but the second `Close` returns an error (`net.ErrClosed`
from re-closing the already-closed connection, since `Close` does not clear
the handle) — contradicting the claim that the second `close()` returns no
error in every state. -/
theorem close_twice_returns_error :
    (Client.Close cConnW).2 = none ∧
    (Client.Close (Client.Close cConnW).1).2 = some .netErrClosed :=
  ⟨rfl, rfl⟩

/-- C8 amended: calling `close()` twice never panics (both `Client.Close`
and `BatchClient.Close` are total, and the async stop channel is nil-ed so
it is never closed twice); the second close returns no error exactly when
the client holds no connection handle (e.g. it never connected); when a
connection handle is still present, the second close returns the
connection's `net.ErrClosed`, because `Close` leaves the handle in place.
The batcher surfaces exactly the wrapped client's close result. -/
theorem close_twice_spec (c : Client) (bc : BatchClient)
    (f : List LogEntry → Option SdkError) :
    (c.conn = none →
       (Client.Close c).2 = none ∧
       (Client.Close (Client.Close c).1).2 = none) ∧
    (∀ cn, c.conn = some cn →
       (Client.Close (Client.Close c).1).2 = some .netErrClosed) ∧
    (BatchClient.Close bc c f).2.2 = (Client.Close c).2 ∧
    (c.conn = none →
       (BatchClient.Close (BatchClient.Close bc c f).1
          (BatchClient.Close bc c f).2.1 f).2.2 = none) ∧
    (∀ cn, c.conn = some cn →
       (BatchClient.Close (BatchClient.Close bc c f).1
          (BatchClient.Close bc c f).2.1 f).2.2 = some .netErrClosed) := by
  have h1 := Close_conn_spec c
  refine ⟨fun hc => ?_, fun cn hc => ?_, ?_, fun hc => ?_, fun cn hc => ?_⟩
  · obtain ⟨hconn, herr⟩ := h1.1 hc
    exact ⟨herr, ((Close_conn_spec (Client.Close c).1).1 hconn).2⟩
  · obtain ⟨hconn, _⟩ := h1.2 cn hc
    have h2 := (Close_conn_spec (Client.Close c).1).2 _ hconn
    rw [h2.2]
    rfl
  · unfold BatchClient.Close
    rfl
  · obtain ⟨hconn, _⟩ := h1.1 hc
    show (Client.Close (BatchClient.Close bc c f).2.1).2 = none
    have : (BatchClient.Close bc c f).2.1 = (Client.Close c).1 := rfl
    rw [this]
    exact ((Close_conn_spec (Client.Close c).1).1 hconn).2
  · obtain ⟨hconn, _⟩ := h1.2 cn hc
    show (Client.Close (BatchClient.Close bc c f).2.1).2 = some .netErrClosed
    have : (BatchClient.Close bc c f).2.1 = (Client.Close c).1 := rfl
    rw [this]
    rw [((Close_conn_spec (Client.Close c).1).2 _ hconn).2]
    rfl

/-- A concrete batcher with an empty buffer, already stopped. -/
def bcEmptyW : BatchClient :=
  { config := { MaxBatchSize := 2, FlushInterval := 5, AutoFlush := true },
    batch := [], timerArmed := false, stopped := false }

/-- Concrete instance of `close_twice_spec`: a never-connected client (and
a batcher wrapping it) can be closed twice with no error; a connected one
yields `net.ErrClosed` on the second close. -/
theorem close_twice_spec_witness :
    ((Client.Close cOpenW).2 = none ∧
     (Client.Close (Client.Close cOpenW).1).2 = none) ∧
    (Client.Close (Client.Close cConnW).1).2 = some .netErrClosed ∧
    (BatchClient.Close (BatchClient.Close bcEmptyW cOpenW (fun _ => none)).1
       (BatchClient.Close bcEmptyW cOpenW (fun _ => none)).2.1
       (fun _ => none)).2.2 = none :=
  ⟨(close_twice_spec cOpenW bcEmptyW (fun _ => none)).1 rfl,
   (close_twice_spec cConnW bcEmptyW (fun _ => none)).2.1 { closed := false } rfl,
   (close_twice_spec cOpenW bcEmptyW (fun _ => none)).2.2.2.1 rfl⟩

theorem retryLoop_step_none (env : Nat → Bool × Bool) (k rem : Nat)
    (le : Option AttemptError) :
    Client.retryLoop env k (rem + 1) none le =
      (if (env k).1 then
        if (env k).2 then ((some { closed := false } : Option Conn), le, true)
        else
          Client.retryLoop env (k + 1) rem none
            (some (.writeError "failed to write data"))
      else
        Client.retryLoop env (k + 1) rem none
          (some (.connectError "failed to connect"))) := rfl

theorem retryLoop_step_some (env : Nat → Bool × Bool) (k rem : Nat)
    (cn : Conn) (le : Option AttemptError) :
    Client.retryLoop env k (rem + 1) (some cn) le =
      (if (env k).2 then ((some cn : Option Conn), le, true)
      else
        Client.retryLoop env (k + 1) rem none
          (some (.writeError "failed to write data"))) := rfl

theorem lastFailError_none_eq (env : Nat → Bool × Bool) (k n : Nat) :
    lastFailError env none k (k + n) =
      (if (env (k + n)).1 then AttemptError.writeError "failed to write data"
       else AttemptError.connectError "failed to connect") := by
  unfold lastFailError
  by_cases h : k = k + n
  · rw [if_pos h, ← h]
    simp
  · rw [if_neg h]

theorem retryLoop_all_fail (env : Nat → Bool × Bool)
    (hw : ∀ a, (env a).2 = false) :
    ∀ rem k conn le,
      Client.retryLoop env k (rem + 1) conn le =
        (none, some (lastFailError env conn k (k + rem)), false) := by
  intro rem
  induction rem with
  | zero =>
      intro k conn le
      cases conn with
      | none =>
          rw [retryLoop_step_none, hw k, lastFailError_none_eq]
          simp only [Nat.add_zero]
          by_cases h1 : (env k).1 = true
          · rw [if_pos h1, if_neg Bool.false_ne_true, if_pos h1]
            rfl
          · rw [if_neg h1, if_neg h1]
            rfl
      | some cn =>
          rw [retryLoop_step_some, hw k, if_neg Bool.false_ne_true]
          unfold lastFailError
          rw [if_pos (show k = k + 0 by omega)]
          simp [Client.retryLoop]
  | succ n ih =>
      intro k conn le
      have htail : ∀ le' : Option AttemptError,
          Client.retryLoop env (k + 1) (n + 1) none le' =
            (none, some (lastFailError env conn k (k + (n + 1))), false) := by
        intro le'
        rw [ih (k + 1) none le', lastFailError_none_eq,
          show k + 1 + n = k + (n + 1) by omega]
        unfold lastFailError
        rw [if_neg (show ¬ k = k + (n + 1) by omega)]
      cases conn with
      | none =>
          rw [retryLoop_step_none, hw k]
          by_cases h1 : (env k).1 = true
          · rw [if_pos h1, if_neg Bool.false_ne_true]
            exact htail _
          · rw [if_neg h1]
            exact htail _
      | some cn =>
          rw [retryLoop_step_some, hw k, if_neg Bool.false_ne_true]
          exact htail _

theorem retryLoop_succeeds (env : Nat → Bool × Bool) :
    ∀ rem k conn le j, j ≤ rem →
      (env (k + j)).1 = true → (env (k + j)).2 = true →
      (Client.retryLoop env k (rem + 1) conn le).2.2 = true := by
  intro rem
  induction rem with
  | zero =>
      intro k conn le j hj h1 h2
      have hj0 : j = 0 := by omega
      subst hj0
      simp only [Nat.add_zero] at h1 h2
      cases conn with
      | none => rw [retryLoop_step_none, if_pos h1, if_pos h2]
      | some cn => rw [retryLoop_step_some, if_pos h2]
  | succ n ih =>
      intro k conn le j hj h1 h2
      have htail : j ≠ 0 →
          ∀ le' : Option AttemptError,
            (Client.retryLoop env (k + 1) (n + 1) none le').2.2 = true := by
        intro hne le'
        refine ih (k + 1) none le' (j - 1) (by omega) ?_ ?_
        · rw [show k + 1 + (j - 1) = k + j by omega]
          exact h1
        · rw [show k + 1 + (j - 1) = k + j by omega]
          exact h2
      cases conn with
      | none =>
          rw [retryLoop_step_none]
          by_cases hk1 : (env k).1 = true
          · by_cases hk2 : (env k).2 = true
            · rw [if_pos hk1, if_pos hk2]
            · rw [if_pos hk1, if_neg hk2]
              refine htail (fun h0 => hk2 ?_) _
              subst h0
              simpa using h2
          · rw [if_neg hk1]
            refine htail (fun h0 => hk1 ?_) _
            subst h0
            simpa using h1
      | some cn =>
          rw [retryLoop_step_some]
          by_cases hk2 : (env k).2 = true
          · rw [if_pos hk2]
          · rw [if_neg hk2]
            refine htail (fun h0 => hk2 ?_) _
            subst h0
            simpa using h2

/-- C2: when the circuit breaker permits the send, then (a) if every one of
the `MaxRetries + 1` attempts fails, `sendWithRetry` reports exactly one
failure (and no success) to the circuit breaker and returns the
send-exhausted error carrying attempt count `MaxRetries + 1` and wrapping
the last attempt's underlying error, with the connection nil-ed out; and
(b) if some attempt succeeds, it reports exactly one success (and no
failure) and returns no error. -/
theorem sendWithRetry_outcome (c : Client) (data : Payload)
    (env : Nat → Bool × Bool) (now : Int)
    (hmr : 0 ≤ c.config.MaxRetries)
    (hgate : (circuitBreaker.canExecute c.circuitBreaker now).2 = none) :
    ((∀ a, (env a).2 = false) →
       Client.sendWithRetry c data env now =
         ({ c with conn := none,
                   circuitBreaker :=
                     circuitBreaker.onFailure
                       (circuitBreaker.canExecute c.circuitBreaker now).1 now },
          some (.sendExhaustedError (c.config.MaxRetries + 1)
            (some (lastFailError env c.conn 0 c.config.MaxRetries.toNat))),
          0, 1)) ∧
    ((∃ a : Nat, (a : Int) ≤ c.config.MaxRetries ∧
        (env a).1 = true ∧ (env a).2 = true) →
       (Client.sendWithRetry c data env now).2.1 = none ∧
       (Client.sendWithRetry c data env now).2.2 = (1, 0) ∧
       (Client.sendWithRetry c data env now).1.circuitBreaker =
         circuitBreaker.onSuccess
           (circuitBreaker.canExecute c.circuitBreaker now).1) := by
  have hA : (c.config.MaxRetries + 1).toNat = c.config.MaxRetries.toNat + 1 := by
    omega
  constructor
  · intro hw
    have hloop :=
      retryLoop_all_fail env hw c.config.MaxRetries.toNat 0 c.conn none
    rw [Nat.zero_add] at hloop
    simp [Client.sendWithRetry, hgate, hA, hloop]
  · rintro ⟨a, ha, h1, h2⟩
    have hsucc :=
      retryLoop_succeeds env c.config.MaxRetries.toNat 0 c.conn none a
        (by omega) (by simpa using h1) (by simpa using h2)
    refine ⟨?_, ?_, ?_⟩ <;> simp [Client.sendWithRetry, hgate, hA, hsucc]

/-- A concrete client whose breaker is `Closed` with zero failures. -/
def cClosedW : Client :=
  { config := cfgW, conn := none, asyncChan := none, stopChan := false,
    circuitBreaker :=
      { config := cfgW, lastFailureTime := 0, state := .circuitClosed,
        failureCount := 0 } }

/-- Concrete instance of `sendWithRetry_outcome`: with `MaxRetries = 3` and
every dial failing, the send returns a send-exhausted error with attempt
count 4 wrapping the last connect error and reports exactly one failure;
with the network healthy the send succeeds and reports exactly one
success. -/
theorem sendWithRetry_outcome_witness :
    Client.sendWithRetry cClosedW .ping (fun _ => (false, false)) 9 =
      ({ cClosedW with
          circuitBreaker :=
            { config := cfgW, lastFailureTime := 9, state := .circuitClosed,
              failureCount := 1 } },
       some (.sendExhaustedError 4 (some (.connectError "failed to connect"))),
       0, 1) ∧
    (Client.sendWithRetry cClosedW .ping (fun _ => (true, true)) 9).2.1 =
      none ∧
    (Client.sendWithRetry cClosedW .ping (fun _ => (true, true)) 9).2.2 =
      (1, 0) := by
  constructor
  · have h := (sendWithRetry_outcome cClosedW .ping (fun _ => (false, false)) 9
      (by decide) rfl).1 (fun a => rfl)
    exact h.trans rfl
  · have h := (sendWithRetry_outcome cClosedW .ping (fun _ => (true, true)) 9
      (by decide) rfl).2 ⟨0, by decide, rfl, rfl⟩
    exact ⟨h.1, h.2.1⟩

/-- C4: for `attempt ≤ 0` the backoff is exactly the configured initial
delay (no jitter); for `attempt > 0` and every jitter draw `r ∈ [0,1)` the
returned delay `d` satisfies `RetryDelay ≤ d` and
`d ≤ MaxRetryDelay * (1 + JitterPercent)`.  The configuration hypotheses
are the documented domain: non-negative delays with
`RetryDelay ≤ MaxRetryDelay`, a non-negative multiplier, and a
non-negative jitter fraction. -/
theorem CalculateBackoffDelay_bounds (c : Config) (attempt : Int) (r : ℚ)
    (hr0 : 0 ≤ r) (hr1 : r < 1)
    (hd : 0 ≤ c.RetryDelay)
    (hdm : c.RetryDelay ≤ c.MaxRetryDelay)
    (hm : 0 ≤ c.RetryMultiplier)
    (hj : 0 ≤ c.JitterPercent) :
    (attempt ≤ 0 → Config.CalculateBackoffDelay c attempt r = c.RetryDelay) ∧
    (0 < attempt →
       c.RetryDelay ≤ Config.CalculateBackoffDelay c attempt r ∧
       ((Config.CalculateBackoffDelay c attempt r : ℚ) ≤
          (c.MaxRetryDelay : ℚ) * (1 + c.JitterPercent))) := by
  have hdQ : (0 : ℚ) ≤ (c.RetryDelay : ℚ) := by exact_mod_cast hd
  have hdmQ : ((c.RetryDelay : ℚ)) ≤ (c.MaxRetryDelay : ℚ) := by
    exact_mod_cast hdm
  have hmaxQ : (0 : ℚ) ≤ (c.MaxRetryDelay : ℚ) := le_trans hdQ hdmQ
  constructor
  · intro h
    unfold Config.CalculateBackoffDelay
    rw [if_pos h]
  · intro h
    simp only [Config.CalculateBackoffDelay]
    rw [if_neg (show ¬ attempt ≤ 0 by omega)]
    set d0 : ℚ := (c.RetryDelay : ℚ) * c.RetryMultiplier ^ attempt.toNat
      with hd0def
    have hd00 : 0 ≤ d0 := mul_nonneg hdQ (pow_nonneg hm _)
    set dcap : ℚ :=
      if d0 > (c.MaxRetryDelay : ℚ) then (c.MaxRetryDelay : ℚ) else d0
      with hcapdef
    have hcap_le : dcap ≤ (c.MaxRetryDelay : ℚ) := by
      rw [hcapdef]
      split_ifs with hcp
      · exact le_refl _
      · exact le_of_not_lt hcp
    have hcap0 : 0 ≤ dcap := by
      rw [hcapdef]
      split_ifs
      · exact hmaxQ
      · exact hd00
    set dj : ℚ :=
      if c.JitterPercent > 0 then
        dcap + (r * 2 - 1) * (dcap * c.JitterPercent)
      else dcap
      with hjdef
    have hdj_le : dj ≤ (c.MaxRetryDelay : ℚ) * (1 + c.JitterPercent) := by
      rw [hjdef]
      split_ifs with hjp
      · nlinarith [mul_nonneg hcap0 hj, mul_le_mul_of_nonneg_right hcap_le hj,
          mul_nonneg (show (0 : ℚ) ≤ 1 - (r * 2 - 1) by linarith)
            (mul_nonneg hcap0 hj)]
      · have hj0 : c.JitterPercent = 0 := le_antisymm (not_lt.mp hjp) hj
        rw [hj0]
        simpa using hcap_le
    have hmax_mul : (c.MaxRetryDelay : ℚ) ≤
        (c.MaxRetryDelay : ℚ) * (1 + c.JitterPercent) := by
      nlinarith [mul_nonneg hmaxQ hj]
    constructor
    · split_ifs with hfi
      · exact le_refl _
      · omega
    · split_ifs with hfi
      · exact le_trans hdmQ hmax_mul
      · by_cases hdj0 : 0 ≤ dj
        · have ht : truncToInt dj = ⌊dj⌋ := by
            unfold truncToInt
            rw [if_pos hdj0]
          rw [ht]
          exact le_trans (Int.floor_le dj) hdj_le
        · have ht : truncToInt dj = ⌈dj⌉ := by
            unfold truncToInt
            rw [if_neg hdj0]
          rw [ht]
          have h1 : (⌈dj⌉ : Int) ≤ 0 :=
            Int.ceil_le.mpr (by exact_mod_cast le_of_not_le hdj0)
          have h2 : ((⌈dj⌉ : Int) : ℚ) ≤ 0 := by exact_mod_cast h1
          nlinarith [mul_nonneg hmaxQ hj]

/-- Concrete instance of `CalculateBackoffDelay_bounds`: with the default
configuration (initial delay 100, max 5000, multiplier 2, jitter 0.1) and
jitter draw `r = 1/3`, the attempt-2 delay lies in the claimed range, and
attempt 0 returns the initial delay exactly. -/
theorem CalculateBackoffDelay_bounds_witness :
    Config.CalculateBackoffDelay cfgW 0 (1 / 3) = 100 ∧
    (100 : Int) ≤ Config.CalculateBackoffDelay cfgW 2 (1 / 3) ∧
    ((Config.CalculateBackoffDelay cfgW 2 (1 / 3) : ℚ) ≤
      5000 * (1 + 1 / 10)) := by
  have h0 := (CalculateBackoffDelay_bounds cfgW 0 (1 / 3) (by norm_num)
    (by norm_num) (by norm_num [cfgW]) (by norm_num [cfgW])
    (by norm_num [cfgW]) (by norm_num [cfgW])).1 (by norm_num)
  have h2 := (CalculateBackoffDelay_bounds cfgW 2 (1 / 3) (by norm_num)
    (by norm_num) (by norm_num [cfgW]) (by norm_num [cfgW])
    (by norm_num [cfgW]) (by norm_num [cfgW])).2 (by norm_num)
  refine ⟨by rw [h0]; norm_num [cfgW], ?_, ?_⟩
  · have := h2.1
    simpa [cfgW] using this
  · have := h2.2
    simpa [cfgW] using this
